import Mathlib

/-!
Verification of the storage-serving miner (`neurons/miner.py`).

The embedding mirrors the source:
- a SQLite database file is a map from table name to a table of rows
  `{id, data}` (`data` nullable, as in the `{id, data}` schema);
- the filesystem holds one database file per allocated peer, keyed by path;
- `allocations` maps a peer hotkey to the path of its database file
  (the part of the allocation dict the handlers read);
- `retrieve` and `store` are the two request handlers, modelled as state
  transformers returning the new storage state and either a response or the
  uncaught Python exception (`Except.error`);
- the main `while True` loop, the `allocate.generate` call sites, and
  `close_db_connections` over `threading.local` are modelled separately.
-/

namespace Tensorage

/-- A row of a peer table, schema `{id, data}`; `data` is nullable. -/
structure Row where
  id : String
  data : Option String
deriving DecidableEq, Repr

/-- A peer table: the rows, in order (SELECT/fetchone sees the first match). -/
abbrev Table := List Row

/-- One SQLite database file: association of table name to table. -/
abbrev Database := List (String × Table)

/-- The storage state: association of filesystem path to database file. -/
abbrev DBState := List (String × Database)

/-- The environment the handlers close over: the miner wallet hotkey and the
current `allocations` dict, reduced to the fields the handlers read
(`validator` hotkey, `path`). -/
structure Env where
  myHotkey : String
  allocations : List (String × String)
deriving DecidableEq, Repr

/-- Table name used by both handlers:
`DB{wallet.hotkey.ss58_address}{synapse.dendrite.hotkey}` (miner.py:193,220). -/
def tableName (myHotkey peer : String) : String :=
  "DB" ++ myHotkey ++ peer

/-- Effect of `UPDATE ... SET data = ? WHERE id = ?` on one row. -/
def updateRow (key : String) (v : Option String) (r : Row) : Row :=
  if r.id == key then { id := r.id, data := v } else r

/-- Replace the value bound to `k` in an association list (no-op when `k`
is absent, matching SQL updating an existing object in place). -/
def updateAssoc {α : Type} (k : String) (v : α) :
    List (String × α) → List (String × α)
  | [] => []
  | (k1, v1) :: rest =>
      if k1 = k then (k, v) :: updateAssoc k v rest
      else (k1, v1) :: updateAssoc k v rest

/-- `cursor.execute("SELECT data FROM {tbl} WHERE id=?", (key,))` followed by
`fetchone()` (miner.py:193-195). `sqlite3.connect` creates a missing file as
an empty database; selecting from a missing table raises (OperationalError),
modelled as `Except.error`. `fetchone` yields the first matching row's data
column, or nothing. The state is returned unchanged: a SELECT writes no row. -/
def execSelectData (path tbl key : String) (db : DBState) :
    DBState × Except String (Option (Option String)) :=
  match ((db.lookup path).getD []).lookup tbl with
  | none => (db, Except.error "no such table")
  | some t =>
      (db, Except.ok ((t.find? (fun r => r.id == key)).map Row.data))

/-- `cursor.execute("UPDATE {tbl} SET data = ? WHERE id = ?", (v, key))` plus
`db.commit()` (miner.py:220-222): overwrite the data column of every row
matching `key` (zero matching rows is not an error). Updating a missing table
raises, leaving the state unchanged. -/
def execUpdateData (path tbl key : String) (v : Option String) (db : DBState) :
    DBState × Except String Unit :=
  match ((db.lookup path).getD []).lookup tbl with
  | none => (db, Except.error "no such table")
  | some t =>
      (updateAssoc path
        (updateAssoc tbl (t.map (updateRow key v)) ((db.lookup path).getD []))
        db,
       Except.ok ())

/-- The `retrieve` handler (miner.py:183-204).
`allocations[synapse.dendrite.hotkey]` raises KeyError when the peer is not
in the directory; nothing catches it. Otherwise run the SELECT; an execute
error is also uncaught. On a fetched tuple (`if data_value:`), the data
column becomes `synapse.data` — note a `(None,)` row is truthy, so a present
row with null data also yields `data = none`. On no tuple, `data = none`. -/
def retrieve (env : Env) (db : DBState) (peer key : String) :
    DBState × Except String (Option String) :=
  match env.allocations.lookup peer with
  | none => (db, Except.error "KeyError")
  | some path =>
      match execSelectData path (tableName env.myHotkey peer) key db with
      | (db2, Except.error e) => (db2, Except.error e)
      | (db2, Except.ok (some d)) => (db2, Except.ok d)
      | (db2, Except.ok none) => (db2, Except.ok none)

/-- The `store` handler (miner.py:206-228).
`allocations[synapse.dendrite.hotkey]` (line 212) is outside the try block:
an unallocated peer raises KeyError, uncaught. The UPDATE + commit sit inside
`try/except Exception`: any failure is logged and swallowed, and the handler
still returns the synapse (the acknowledgement, `Except.ok ()`). -/
def store (env : Env) (db : DBState) (peer key : String) (v : Option String) :
    DBState × Except String Unit :=
  match env.allocations.lookup peer with
  | none => (db, Except.error "KeyError")
  | some path =>
      match execUpdateData path (tableName env.myHotkey peer) key v db with
      | (db2, Except.ok _) => (db2, Except.ok ())
      | (_, Except.error _) => (db, Except.ok ())

/-- Modelled from the spec: `allocate.generate` is not under `src/`; the spec
says provisioning pre-populates a peer's table "with placeholder rows up to
that capacity", and a provisioned-but-never-written key must read back as
NotFound, so a placeholder row carries a null `data`. The table provisioned
for a given list of keys. -/
def generateTable (keys : List String) : Table :=
  keys.map (fun k => { id := k, data := none })

/-- Outcome of the body of one `while True` iteration (miner.py:254-308):
it completes, or raises KeyboardInterrupt, or raises some other exception. -/
inductive TickOutcome
  | ok
  | keyboardInterrupt
  | error (msg : String)
deriving DecidableEq, Repr

/-- Observable result of running the main loop over a finite prefix of tick
outcomes: whether the loop exited, which exception messages were logged by
the catch-all handler (miner.py:306-308), and how many ticks were processed. -/
structure LoopResult where
  stopped : Bool
  loggedErrors : List String
  ticksRun : Nat
deriving DecidableEq, Repr

/-- The `while True` loop (miner.py:254-308): KeyboardInterrupt breaks;
any other exception is logged and the loop continues with the next tick. -/
def runLoop : List TickOutcome → LoopResult
  | [] => { stopped := false, loggedErrors := [], ticksRun := 0 }
  | TickOutcome.keyboardInterrupt :: _ =>
      { stopped := true, loggedErrors := [], ticksRun := 1 }
  | TickOutcome.ok :: rest =>
      let r := runLoop rest
      { stopped := r.stopped, loggedErrors := r.loggedErrors,
        ticksRun := r.ticksRun + 1 }
  | TickOutcome.error m :: rest =>
      let r := runLoop rest
      { stopped := r.stopped, loggedErrors := m :: r.loggedErrors,
        ticksRun := r.ticksRun + 1 }

/-- One call to `allocate.generate`, recording the `restart` argument and
whether it is the process-startup call (miner.py:154-159) or an in-loop
reallocation call (miner.py:287-294). -/
structure GenerateCall where
  restart : Bool
  atStartup : Bool
deriving DecidableEq, Repr

/-- The `generate` calls issued by the loop body over `n` ticks, starting at
step counter `step`: a reallocation tick (`step % steps_per_reallocate == 0`)
calls `generate(..., restart=False)` (miner.py:293). -/
def generateCallsLoop (stepsPerReallocate : Nat) : Nat → Nat → List GenerateCall
  | 0, _ => []
  | n + 1, step =>
      (if step % stepsPerReallocate == 0
        then [{ restart := false, atStartup := false }] else [])
        ++ generateCallsLoop stepsPerReallocate n (step + 1)

/-- All `generate` calls of a run of `main` over `n` ticks: the startup call
passes `restart=config.restart` (miner.py:158), then the loop runs from
step 0. -/
def minerGenerateCalls (cfgRestart : Bool) (stepsPerReallocate n : Nat) :
    List GenerateCall :=
  { restart := cfgRestart, atStartup := true }
    :: generateCallsLoop stepsPerReallocate n 0

/-- The per-worker connection pools: worker id mapped to its
`threading.local` attributes `connection_{validator}` with an open flag. -/
abbrev WorkerPools := List (Nat × List (String × Bool))

/-- `close_db_connections` (miner.py:164-170) run in worker `current`:
`dir(local_storage)` only exposes the attributes set by the calling thread,
so only the calling worker's connections are closed. -/
def close_db_connections (current : Nat) (pools : WorkerPools) : WorkerPools :=
  pools.map (fun wp =>
    if wp.1 == current
      then (wp.1, wp.2.map (fun c => (c.1, false)))
      else wp)

/-! ### Helper lemmas -/

theorem lookup_updateAssoc_self {α : Type} (l : List (String × α)) (k : String)
    (v w : α) (h : l.lookup k = some w) :
    (updateAssoc k v l).lookup k = some v := by
  induction l with
  | nil => simp [List.lookup] at h
  | cons p rest ih =>
      obtain ⟨k1, v1⟩ := p
      by_cases hk : k1 = k
      · subst hk
        simp [updateAssoc, List.lookup_cons]
      · have hb : (k == k1) = false := beq_false_of_ne (fun he => hk he.symm)
        simp only [List.lookup_cons, hb] at h
        simp only [updateAssoc, if_neg hk, List.lookup_cons, hb]
        exact ih h

theorem lookup_updateAssoc_ne {α : Type} (l : List (String × α)) (k k2 : String)
    (v : α) (h : k2 ≠ k) :
    (updateAssoc k v l).lookup k2 = l.lookup k2 := by
  induction l with
  | nil => simp [updateAssoc]
  | cons p rest ih =>
      obtain ⟨k1, v1⟩ := p
      by_cases hk : k1 = k
      · subst hk
        have hb : (k2 == k1) = false := beq_false_of_ne h
        simp only [updateAssoc, eq_self_iff_true, if_true, List.lookup_cons, hb]
        exact ih
      · simp only [updateAssoc, if_neg hk, List.lookup_cons]
        by_cases hk2 : k2 = k1
        · subst hk2
          simp
        · have hb : (k2 == k1) = false := beq_false_of_ne hk2
          simp only [hb]
          exact ih

theorem updateRow_id (key : String) (v : Option String) (r : Row) :
    (updateRow key v r).id = r.id := by
  unfold updateRow
  by_cases h : r.id == key <;> simp [h]

theorem find?_map_updateRow (t : Table) (key : String) (v : Option String) :
    (t.map (updateRow key v)).find? (fun r => r.id == key)
      = (t.find? (fun r => r.id == key)).map (updateRow key v) := by
  induction t with
  | nil => simp
  | cons r rest ih =>
      by_cases h : r.id == key
      · have h2 : ((updateRow key v r).id == key) = true := by
          rw [updateRow_id]; exact h
        simp [List.find?, h, h2]
      · have h2 : ((updateRow key v r).id == key) = false := by
          rw [updateRow_id]; simpa using h
        simp only [List.map, List.find?, h2, h, Bool.false_eq_true, if_neg]
        exact ih

theorem tableName_inj (m a b : String) (h : tableName m a = tableName m b) :
    a = b := by
  unfold tableName at h
  have hd := congrArg String.data h
  simp only [String.data_append] at hd
  exact String.ext (List.append_cancel_left hd)

theorem lookup_isSome_of_eq_some {α : Type} (l : List (String × α)) (k : String)
    (w : α) (h : l.lookup k = some w) : l ≠ [] := by
  intro hl
  rw [hl] at h
  simp [List.lookup] at h

theorem find?_self_of_mem (keys : List String) (k : String) (h : k ∈ keys) :
    keys.find? (fun k2 => k2 == k) = some k := by
  induction keys with
  | nil => simp at h
  | cons k2 rest ih =>
      by_cases hk : k2 == k
      · have : k2 = k := by simpa using hk
        simp [List.find?, hk, this]
      · have hne : k2 ≠ k := by simpa using hk
        have hmem : k ∈ rest := by
          rcases List.mem_cons.mp h with h1 | h1
          · exact absurd h1.symm hne
          · exact h1
        simp [List.find?, hk, ih hmem]

theorem retrieve_ok_none_of_no_data (env : Env) (db : DBState)
    (peer key path : String) (tbl : Table)
    (hpath : env.allocations.lookup peer = some path)
    (htbl : ((db.lookup path).getD []).lookup (tableName env.myHotkey peer)
      = some tbl)
    (hdata : tbl.find? (fun r => r.id == key) = none ∨
      (tbl.find? (fun r => r.id == key)).map Row.data = some none) :
    (retrieve env db peer key).2 = Except.ok none := by
  rcases hdata with hnone | hnull
  · simp [retrieve, execSelectData, hpath, htbl, hnone]
  · cases hfind : tbl.find? (fun r => r.id == key) with
    | none => simp [retrieve, execSelectData, hpath, htbl, hfind]
    | some r =>
        rw [hfind] at hnull
        have hr : r.data = none := by
          simpa using hnull
        simp [retrieve, execSelectData, hpath, htbl, hfind, hr]

/-! ### Claim theorems -/

/-- Claim C10: the `retrieve` handler only reads: for every environment,
storage state, peer and key, the storage state after serving a Retrieve is
identical to the state before, whether or not the key is found and whether
or not the peer is allocated. -/
theorem retrieve_state_unchanged (env : Env) (db : DBState) (peer key : String) :
    (retrieve env db peer key).1 = db := by
  cases hp : env.allocations.lookup peer with
  | none => simp [retrieve, hp]
  | some path =>
      cases h : ((db.lookup path).getD []).lookup (tableName env.myHotkey peer) with
      | none => simp [retrieve, execSelectData, hp, h]
      | some t =>
          cases hf : (t.find? (fun r => r.id == key)).map Row.data with
          | none => simp [retrieve, execSelectData, hp, h, hf]
          | some d => simp [retrieve, execSelectData, hp, h, hf]

/-- Claim C3: for every Store request from an allocated peer, the handler
returns the acknowledgement whatever the storage state: in particular when
the UPDATE raises (missing table) or matches zero rows, the failure is
swallowed by the try/except and the synapse is still returned. -/
theorem store_always_acks (env : Env) (db : DBState) (peer key : String)
    (v : Option String) (path : String)
    (hpath : env.allocations.lookup peer = some path) :
    (store env db peer key v).2 = Except.ok () := by
  cases h : ((db.lookup path).getD []).lookup (tableName env.myHotkey peer) with
  | none => simp [store, execUpdateData, hpath, h]
  | some t => simp [store, execUpdateData, hpath, h]

/-- Claim C3 witness: a Store for allocated peer `A` on an empty storage
state (the UPDATE raises `no such table`) is still acknowledged. -/
theorem store_always_acks_witness :
    (store { myHotkey := "M", allocations := [("A", "/a")] } [] "A" "k"
      (some "v")).2 = Except.ok () :=
  store_always_acks { myHotkey := "M", allocations := [("A", "/a")] } []
    "A" "k" (some "v") "/a" rfl

/-- Claim C1 counterexample: with an empty allocation directory, `retrieve`
for peer `peerA` raises an uncaught KeyError instead of answering NotFound
(`Except.ok none`), and `store` raises instead of returning the
acknowledgement: the handlers do not fail closed as the claim states. -/
theorem unallocated_peer_not_notfound_counterexample :
    (retrieve { myHotkey := "M", allocations := [] } [] "peerA" "k").2
        = Except.error "KeyError" ∧
    (retrieve { myHotkey := "M", allocations := [] } [] "peerA" "k").2
        ≠ Except.ok none ∧
    (store { myHotkey := "M", allocations := [] } [] "peerA" "k"
        (some "v")).2 ≠ Except.ok () := by
  refine ⟨rfl, fun h => ?_, fun h => ?_⟩
  · exact Except.noConfusion h
  · exact Except.noConfusion h

/-- Claim C1 (amended): for every Store or Retrieve request whose sender
peer identity is absent from the current allocation directory, the handler
raises an uncaught KeyError (from `allocations[hotkey]`) before touching
storage: no table is changed, but Retrieve does not answer NotFound and
Store does not return an acknowledgement. -/
theorem unallocated_peer_raises_keyerror (env : Env) (db : DBState)
    (peer key : String) (v : Option String)
    (h : env.allocations.lookup peer = none) :
    retrieve env db peer key = (db, Except.error "KeyError") ∧
    store env db peer key v = (db, Except.error "KeyError") := by
  constructor
  · simp [retrieve, h]
  · simp [store, h]

/-- Claim C1 witness: the amended claim at the empty directory. -/
theorem unallocated_peer_raises_keyerror_witness :
    retrieve { myHotkey := "M", allocations := [] } [] "A" "k"
        = ([], Except.error "KeyError") ∧
    store { myHotkey := "M", allocations := [] } [] "A" "k" (some "v")
        = ([], Except.error "KeyError") :=
  unallocated_peer_raises_keyerror { myHotkey := "M", allocations := [] } []
    "A" "k" (some "v") rfl

/-- Claim C4: for an allocated peer whose table exists, Retrieve answers the
same NotFound result (`data = none`) both when no row with the key exists
and when a row exists whose data column is null — the Python truthiness test
`if data_value:` sees `(None,)` as truthy but still yields `data = None`. -/
theorem retrieve_null_missing_indistinguishable (env : Env) (db : DBState)
    (peer key path : String) (tbl : Table)
    (hpath : env.allocations.lookup peer = some path)
    (htbl : ((db.lookup path).getD []).lookup (tableName env.myHotkey peer)
      = some tbl)
    (hdata : tbl.find? (fun r => r.id == key) = none ∨
      (tbl.find? (fun r => r.id == key)).map Row.data = some none) :
    (retrieve env db peer key).2 = Except.ok none :=
  retrieve_ok_none_of_no_data env db peer key path tbl hpath htbl hdata

/-- Claim C4 witness: a present row with null data reads back as NotFound. -/
theorem retrieve_null_missing_indistinguishable_witness :
    (retrieve { myHotkey := "M", allocations := [("A", "/a")] }
      [("/a", [("DBMA", [{ id := "k", data := none }])])] "A" "k").2
    = Except.ok none :=
  retrieve_null_missing_indistinguishable
    { myHotkey := "M", allocations := [("A", "/a")] }
    [("/a", [("DBMA", [{ id := "k", data := none }])])]
    "A" "k" "/a" [{ id := "k", data := none }] rfl rfl (Or.inr rfl)

theorem db_lookup_some_of_table (db : DBState) (path tn : String) (tbl : Table)
    (htbl : ((db.lookup path).getD []).lookup tn = some tbl) :
    ∃ d0, db.lookup path = some d0 := by
  cases hdb : db.lookup path with
  | none =>
      rw [hdb] at htbl
      simp [List.lookup] at htbl
  | some d0 => exact ⟨d0, rfl⟩

/-- Claim C2: for an allocated peer `p` and a provisioned key `k` (a row
with that id exists in the peer's table), `Store(p, k, v)` immediately
followed by `Retrieve(p, k)` yields exactly `v`. -/
theorem store_retrieve_roundtrip (env : Env) (db : DBState)
    (peer key path : String) (v : Option String) (tbl : Table)
    (hpath : env.allocations.lookup peer = some path)
    (htbl : ((db.lookup path).getD []).lookup (tableName env.myHotkey peer)
      = some tbl)
    (hkey : (tbl.find? (fun r => r.id == key)).isSome = true) :
    (retrieve env (store env db peer key v).1 peer key).2 = Except.ok v := by
  obtain ⟨r, hr⟩ := Option.isSome_iff_exists.mp hkey
  obtain ⟨d0, hdb⟩ := db_lookup_some_of_table db path
    (tableName env.myHotkey peer) tbl htbl
  have htbl0 : d0.lookup (tableName env.myHotkey peer) = some tbl := by
    rw [hdb] at htbl
    simpa using htbl
  have hrid : (r.id == key) = true := by
    simpa using List.find?_some hr
  have hupd : updateRow key v r = { id := r.id, data := v } := by
    unfold updateRow
    rw [hrid]
    simp
  have hfind2 :
      (tbl.map (updateRow key v)).find? (fun x => x.id == key)
        = some { id := r.id, data := v } := by
    rw [find?_map_updateRow, hr]
    simp [hupd]
  have hstore :
      store env db peer key v
        = (updateAssoc path
            (updateAssoc (tableName env.myHotkey peer)
              (tbl.map (updateRow key v)) d0) db,
           Except.ok ()) := by
    simp [store, execUpdateData, hpath, hdb, htbl0]
  have h1 :
      (updateAssoc path
        (updateAssoc (tableName env.myHotkey peer)
          (tbl.map (updateRow key v)) d0) db).lookup path
        = some (updateAssoc (tableName env.myHotkey peer)
            (tbl.map (updateRow key v)) d0) :=
    lookup_updateAssoc_self db path _ d0 hdb
  have h2 :
      (updateAssoc (tableName env.myHotkey peer)
        (tbl.map (updateRow key v)) d0).lookup (tableName env.myHotkey peer)
        = some (tbl.map (updateRow key v)) :=
    lookup_updateAssoc_self d0 (tableName env.myHotkey peer) _ tbl htbl0
  rw [hstore]
  simp [retrieve, execSelectData, hpath, h1, h2, hfind2]

/-- Claim C2 witness: the round trip at a concrete one-row table. -/
theorem store_retrieve_roundtrip_witness :
    (retrieve { myHotkey := "M", allocations := [("A", "/a")] }
      (store { myHotkey := "M", allocations := [("A", "/a")] }
        [("/a", [("DBMA", [{ id := "k", data := none }])])] "A" "k"
        (some "v1")).1 "A" "k").2
    = Except.ok (some "v1") :=
  store_retrieve_roundtrip { myHotkey := "M", allocations := [("A", "/a")] }
    [("/a", [("DBMA", [{ id := "k", data := none }])])]
    "A" "k" "/a" (some "v1") [{ id := "k", data := none }] rfl rfl rfl

theorem store_state_lookup (env : Env) (db : DBState) (a key : String)
    (v : Option String) (path2 tn2 : String)
    (hne : tn2 ≠ tableName env.myHotkey a) :
    (((store env db a key v).1.lookup path2).getD []).lookup tn2
      = ((db.lookup path2).getD []).lookup tn2 := by
  cases hpa : env.allocations.lookup a with
  | none => simp [store, hpa]
  | some pathA =>
      cases hta : ((db.lookup pathA).getD []).lookup (tableName env.myHotkey a) with
      | none => simp [store, execUpdateData, hpa, hta]
      | some t =>
          obtain ⟨d0, hdb⟩ := db_lookup_some_of_table db pathA
            (tableName env.myHotkey a) t hta
          have hta0 : d0.lookup (tableName env.myHotkey a) = some t := by
            rw [hdb] at hta
            simpa using hta
          have hstore :
              (store env db a key v).1
                = updateAssoc pathA
                    (updateAssoc (tableName env.myHotkey a)
                      (t.map (updateRow key v)) d0) db := by
            simp [store, execUpdateData, hpa, hdb, hta0]
          rw [hstore]
          by_cases hp : path2 = pathA
          · subst hp
            have h1 :
                (updateAssoc path2
                  (updateAssoc (tableName env.myHotkey a)
                    (t.map (updateRow key v)) d0) db).lookup path2
                  = some (updateAssoc (tableName env.myHotkey a)
                      (t.map (updateRow key v)) d0) :=
              lookup_updateAssoc_self db path2 _ d0 hdb
            rw [h1, hdb]
            simp only [Option.getD_some]
            exact lookup_updateAssoc_ne d0 (tableName env.myHotkey a) tn2 _ hne
          · rw [lookup_updateAssoc_ne db pathA path2 _ hp]

/-- Claim C5: a Store from peer `A` never changes what Retrieve answers to a
distinct peer `B` for the same key — the two operations address tables named
`DB{myHotkey}{A}` and `DB{myHotkey}{B}`, which differ whenever `A ≠ B`; in
particular, when the table of `B` holds no data for the key, Retrieve(B, key)
after the store still answers NotFound. -/
theorem store_isolated_per_peer (env : Env) (db : DBState) (a b key : String)
    (v : Option String) (hab : a ≠ b) :
    (retrieve env (store env db a key v).1 b key).2
        = (retrieve env db b key).2 ∧
    (∀ path tbl, env.allocations.lookup b = some path →
      ((db.lookup path).getD []).lookup (tableName env.myHotkey b) = some tbl →
      (tbl.find? (fun r => r.id == key) = none ∨
        (tbl.find? (fun r => r.id == key)).map Row.data = some none) →
      (retrieve env (store env db a key v).1 b key).2 = Except.ok none) := by
  have hne : tableName env.myHotkey b ≠ tableName env.myHotkey a :=
    fun h => hab ((tableName_inj env.myHotkey b a h).symm)
  have hmain :
      (retrieve env (store env db a key v).1 b key).2
        = (retrieve env db b key).2 := by
    cases hpb : env.allocations.lookup b with
    | none => simp [retrieve, hpb]
    | some pathB =>
        have hs := store_state_lookup env db a key v pathB
          (tableName env.myHotkey b) hne
        cases h2 : ((db.lookup pathB).getD []).lookup (tableName env.myHotkey b) with
        | none =>
            rw [h2] at hs
            simp [retrieve, execSelectData, hpb, h2, hs]
        | some t =>
            rw [h2] at hs
            cases hf : (t.find? (fun r => r.id == key)).map Row.data with
            | none => simp [retrieve, execSelectData, hpb, h2, hs, hf]
            | some d => simp [retrieve, execSelectData, hpb, h2, hs, hf]
  refine ⟨hmain, fun path tbl hpath htbl hdata => ?_⟩
  rw [hmain]
  exact retrieve_ok_none_of_no_data env db b key path tbl hpath htbl hdata

/-- Claim C5 witness: storing `v1` under key `k` for peer `A` leaves
Retrieve(`B`, `k`) at NotFound when the table of `B` has no row for `k`. -/
theorem store_isolated_per_peer_witness :
    (retrieve { myHotkey := "M", allocations := [("A", "/a"), ("B", "/b")] }
      (store { myHotkey := "M", allocations := [("A", "/a"), ("B", "/b")] }
        [("/a", [("DBMA", [{ id := "k", data := none }])]),
         ("/b", [("DBMB", [{ id := "j", data := none }])])] "A" "k"
        (some "v1")).1 "B" "k").2
    = Except.ok none :=
  (store_isolated_per_peer
    { myHotkey := "M", allocations := [("A", "/a"), ("B", "/b")] }
    [("/a", [("DBMA", [{ id := "k", data := none }])]),
     ("/b", [("DBMB", [{ id := "j", data := none }])])]
    "A" "B" "k" (some "v1") (by decide)).2
    "/b" [{ id := "j", data := none }] rfl rfl (Or.inl rfl)

theorem generateTable_find (keys : List String) (key : String)
    (hkey : key ∈ keys) :
    (generateTable keys).find? (fun r => r.id == key)
      = some { id := key, data := none } := by
  unfold generateTable
  rw [List.find?_map]
  have hc : ((fun r => r.id == key) ∘ fun k => ({ id := k, data := none } : Row))
      = fun k2 => k2 == key := rfl
  rw [hc, find?_self_of_mem keys key hkey]
  rfl

/-- Claim C6: for an allocated peer whose table was provisioned for a list
of keys (placeholder rows with null data) and never written, Retrieve on any
provisioned key finds the placeholder row and still answers NotFound. -/
theorem retrieve_provisioned_unwritten_notfound (env : Env) (db : DBState)
    (peer path key : String) (keys : List String)
    (hpath : env.allocations.lookup peer = some path)
    (htbl : ((db.lookup path).getD []).lookup (tableName env.myHotkey peer)
      = some (generateTable keys))
    (hkey : key ∈ keys) :
    (generateTable keys).find? (fun r => r.id == key)
        = some { id := key, data := none } ∧
    (retrieve env db peer key).2 = Except.ok none := by
  have hfind := generateTable_find keys key hkey
  refine ⟨hfind, ?_⟩
  exact retrieve_ok_none_of_no_data env db peer key path (generateTable keys)
    hpath htbl (Or.inr (by rw [hfind]; rfl))

/-- Claim C6 witness: a freshly provisioned two-key table reads back
NotFound on a provisioned key. -/
theorem retrieve_provisioned_unwritten_notfound_witness :
    (generateTable ["k0", "k1"]).find? (fun r => r.id == "k1")
        = some { id := "k1", data := none } ∧
    (retrieve { myHotkey := "M", allocations := [("A", "/a")] }
      [("/a", [("DBMA", generateTable ["k0", "k1"])])] "A" "k1").2
    = Except.ok none :=
  retrieve_provisioned_unwritten_notfound
    { myHotkey := "M", allocations := [("A", "/a")] }
    [("/a", [("DBMA", generateTable ["k0", "k1"])])]
    "A" "/a" "k1" ["k0", "k1"] rfl rfl (by decide)

/-- Claim C7: over any finite trace of tick outcomes, the main loop stops
(breaks out of `while True`) exactly when a KeyboardInterrupt occurs; on a
trace free of KeyboardInterrupt every tick is processed and every other
exception message is logged while the loop keeps going. -/
theorem mainloop_survives_errors (outs : List TickOutcome) :
    ((runLoop outs).stopped = true ↔ TickOutcome.keyboardInterrupt ∈ outs) ∧
    (TickOutcome.keyboardInterrupt ∉ outs →
      (runLoop outs).ticksRun = outs.length ∧
      ∀ m, TickOutcome.error m ∈ outs → m ∈ (runLoop outs).loggedErrors) := by
  induction outs with
  | nil => simp [runLoop]
  | cons t rest ih =>
      cases t with
      | ok =>
          refine ⟨by simpa [runLoop] using ih.1, fun hno => ?_⟩
          have hno2 : TickOutcome.keyboardInterrupt ∉ rest :=
            fun hr => hno (List.mem_cons_of_mem _ hr)
          obtain ⟨hlen, herr⟩ := ih.2 hno2
          refine ⟨by simp [runLoop, hlen], fun m hm => ?_⟩
          rcases List.mem_cons.mp hm with h1 | h1
          · exact absurd h1 (by simp)
          · simpa [runLoop] using herr m h1
      | keyboardInterrupt =>
          refine ⟨by simp [runLoop], fun hno => ?_⟩
          exact absurd (List.mem_cons_self _ _) hno
      | error msg =>
          refine ⟨by simpa [runLoop] using ih.1, fun hno => ?_⟩
          have hno2 : TickOutcome.keyboardInterrupt ∉ rest :=
            fun hr => hno (List.mem_cons_of_mem _ hr)
          obtain ⟨hlen, herr⟩ := ih.2 hno2
          refine ⟨by simp [runLoop, hlen], fun m hm => ?_⟩
          rcases List.mem_cons.mp hm with h1 | h1
          · have : m = msg := by
              injection h1
            simp [runLoop, this]
          · simp only [runLoop, List.mem_cons]
            exact Or.inr (herr m h1)

/-- Claim C7 witness: a trace with one swallowed exception and no
KeyboardInterrupt keeps running, processes both ticks, and logs the error. -/
theorem mainloop_survives_errors_witness :
    (runLoop [TickOutcome.error "boom", TickOutcome.ok]).stopped = false ∧
    (runLoop [TickOutcome.error "boom", TickOutcome.ok]).ticksRun = 2 ∧
    "boom" ∈ (runLoop [TickOutcome.error "boom", TickOutcome.ok]).loggedErrors := by
  have h := mainloop_survives_errors [TickOutcome.error "boom", TickOutcome.ok]
  have hno : TickOutcome.keyboardInterrupt
      ∉ [TickOutcome.error "boom", TickOutcome.ok] := by decide
  obtain ⟨hlen, herr⟩ := h.2 hno
  refine ⟨?_, hlen, herr "boom" (by decide)⟩
  cases hb : (runLoop [TickOutcome.error "boom", TickOutcome.ok]).stopped with
  | false => rfl
  | true => exact absurd (h.1.mp hb) hno

theorem generateCallsLoop_restart_false (spr : Nat) :
    ∀ n step c, c ∈ generateCallsLoop spr n step → c.restart = false := by
  intro n
  induction n with
  | zero =>
      intro step c hc
      simp [generateCallsLoop] at hc
  | succ k ih =>
      intro step c hc
      simp only [generateCallsLoop] at hc
      rcases List.mem_append.mp hc with h1 | h1
      · by_cases hs : (step % spr == 0) = true
        · rw [if_pos hs] at h1
          have hc1 := List.mem_singleton.mp h1
          rw [hc1]
        · rw [if_neg hs] at h1
          simp at h1
      · exact ih (step + 1) c h1

/-- Claim C8: across a whole run, the startup `generate` call passes
`restart = config.restart`, and every `generate` call issued from inside the
main loop (any number of ticks, any reallocation cadence) passes
`restart = false`: steady-state reallocation is never destructive. -/
theorem generate_restart_only_at_startup (cfgRestart : Bool) (spr n : Nat) :
    (minerGenerateCalls cfgRestart spr n).head?
        = some { restart := cfgRestart, atStartup := true } ∧
    ∀ c ∈ minerGenerateCalls cfgRestart spr n,
      c.atStartup = false → c.restart = false := by
  refine ⟨rfl, fun c hc hcs => ?_⟩
  rcases List.mem_cons.mp hc with h1 | h1
  · rw [h1] at hcs
    simp at hcs
  · exact generateCallsLoop_restart_false spr n 0 c h1

/-- Claim C8 witness: with `config.restart = true` and a cadence of 2 over
3 ticks, the startup call carries `restart = true` and an in-loop
reallocation call carries `restart = false`. -/
theorem generate_restart_only_at_startup_witness :
    (minerGenerateCalls true 2 3).head?
        = some { restart := true, atStartup := true } ∧
    ({ restart := false, atStartup := false } : GenerateCall).restart = false :=
  ⟨(generate_restart_only_at_startup true 2 3).1,
   (generate_restart_only_at_startup true 2 3).2
     { restart := false, atStartup := false } (by decide) rfl⟩

/-- Claim C9: `close_db_connections` iterates `dir(local_storage)`, a
`threading.local`, so run from the main thread at shutdown (worker 0) it
closes only the connections of the main thread: a handler worker (worker 1)
holding an open connection keeps it open, contradicting the claim that no
worker retains an open handle after the shutdown path runs. -/
theorem close_db_connections_thread_local_bug :
    close_db_connections 0
        [(0, [("connection_V", true)]), (1, [("connection_W", true)])]
      = [(0, [("connection_V", false)]), (1, [("connection_W", true)])] := rfl

end Tensorage
